import Mathlib

/-!
Verification of `serp_scraper.py` against its specification.

The script is embedded shallowly: pure helpers become Lean functions on
`String`/`List`; the external collaborators (Selenium browser driver,
BeautifulSoup parser, OpenAI service, wall-clock time) are abstracted as
explicit inputs (environment records, poll-outcome lists, parsed node
trees, response records), and raised Python exceptions are modelled as
`Except.error`.  Character-level modelling covers the ASCII whitespace and
line separators the script manipulates.
-/

namespace SerpScraper

/-- The ASCII whitespace characters recognised by Python's `str.strip()`. -/
def pyIsSpace (c : Char) : Bool :=
  c = ' ' || c = '\t' || c = '\n' || c = '\r' || c = '\x0b' || c = '\x0c'

/-- Character-level core of Python's `str.strip()`: drop whitespace from the
front, then from the back. -/
def stripChars (l : List Char) : List Char :=
  (((l.dropWhile pyIsSpace).reverse).dropWhile pyIsSpace).reverse

/-- Model of Python's `str.strip()` (no arguments): remove leading and
trailing whitespace. -/
def pyStrip (s : String) : String :=
  String.mk (stripChars s.data)

/-- Character-level core of Python's `str.splitlines()`: split at `\n`,
`\r\n` or `\r`, emitting no trailing empty chunk for a trailing
terminator.  `acc` holds the current chunk reversed; `afterCR` records
that the previous character was `\r`, so that an immediately following
`\n` is part of the same `\r\n` break. -/
def pySplitlinesAux : List Char → List Char → Bool → List (List Char)
  | [], acc, _ => if acc.isEmpty then [] else [acc.reverse]
  | c :: rest, acc, afterCR =>
    if afterCR && c = '\n' then pySplitlinesAux rest [] false
    else if c = '\n' then acc.reverse :: pySplitlinesAux rest [] false
    else if c = '\r' then acc.reverse :: pySplitlinesAux rest [] true
    else pySplitlinesAux rest (c :: acc) false

/-- Model of Python's `str.splitlines()` restricted to the `\n`, `\r\n`,
`\r` terminators. -/
def pySplitlines (s : String) : List String :=
  (pySplitlinesAux s.data [] false).map (fun l => String.mk l)

/-- Model of Python's `sep.join(list)`: interleave `sep` between the
elements. -/
def joinSep (sep : String) : List String → String
  | [] => ""
  | [a] => a
  | a :: b :: rest => a ++ sep ++ joinSep sep (b :: rest)

/-- Python truthiness of an `Optional[str]`: `None` and `""` are falsy,
every other string is truthy. -/
def optStrTruthy : Option String → Bool
  | none => false
  | some s => !(s == "")

/-! ## Text extractor (`extract_text_from_html`, lines 98-104)

The BeautifulSoup/lxml parse of the markup string is abstracted as an
already-parsed tree of nodes (`Node`); the `lxml` parser itself is an
external collaborator.  `soup(["script", ...])` + `tag.decompose()` and
`soup.get_text(separator="\n", strip=True)` are modelled on that tree.
-/

/-- A parsed markup tree: text nodes and elements with a tag name and
children.  This abstracts the BeautifulSoup document produced by
`BeautifulSoup(html, "lxml")`. -/
inductive Node where
  | text (s : String)
  | elem (tag : String) (children : List Node)

/-- The tags whose subtrees `extract_text_from_html` decomposes before
collecting text: `["script", "style", "noscript", "template", "svg"]`. -/
def decomposedTags : List String := ["script", "style", "noscript", "template", "svg"]

mutual

/-- Visible text strings of a tree in document order, after removing the
decomposed subtrees (the effect of `tag.decompose()` on the soup). -/
def textNodes : Node → List String
  | Node.text s => [s]
  | Node.elem tag children =>
    if tag ∈ decomposedTags then [] else textNodesList children

/-- `textNodes` mapped over a forest, concatenated in order. -/
def textNodesList : List Node → List String
  | [] => []
  | n :: rest => textNodes n ++ textNodesList rest

end

/-- Model of `soup.get_text(separator="\n", strip=True)`: each visible
text string is stripped, empty results are skipped, and the survivors are
joined with the separator. -/
def get_text (root : Node) : String :=
  joinSep "\n" (((textNodes root).map pyStrip).filter (fun s => !(s == "")))

/-- `extract_text_from_html` (lines 98-104): decompose script/style/
noscript/template/svg subtrees, take the stripped visible text joined by
newlines, then re-split into lines, strip each line, drop empty lines and
join with newlines. -/
def extract_text_from_html (root : Node) : String :=
  let text := get_text root
  joinSep "\n" (((pySplitlines text).map pyStrip).filter (fun l => !(l == "")))

/-! ## Summarizer (`summarize_text_with_llm`, lines 107-171)

The OpenAI client is an external collaborator: the response it returns is
an explicit input (`LLMResponse`).  A `getattr(x, "type", None)` is an
`Option String` field; a block's `content` attribute is either a list of
pieces, a raw string, or absent.  A raised `RuntimeError` is
`Except.error`. -/

/-- A content piece inside a `message` block: its `type` attribute (if
any) and its `text` attribute. -/
structure Piece where
  ptype : Option String
  text : String
deriving DecidableEq

/-- The `content` attribute of a response block: a list of pieces, a raw
string, or absent. -/
inductive BlockContent where
  | pieces (ps : List Piece)
  | str (s : String)
  | absent
deriving DecidableEq

/-- A block of `response.output`: its `type` attribute (if any) and its
`content` attribute. -/
structure Block where
  btype : Option String
  content : BlockContent
deriving DecidableEq

/-- A response of the remote generation service: the consolidated
`output_text` attribute (if any) and the structured `output` list. -/
structure LLMResponse where
  output_text : Option String
  output : List Block
deriving DecidableEq

/-- The pieces obtained by iterating a block's `content` in the `message`
branch: a piece list iterates as itself; iterating a raw string yields
characters, which have no `type` attribute and so contribute no pieces;
absent content defaults to `[]`. -/
def iterablePieces : BlockContent → List Piece
  | BlockContent.pieces ps => ps
  | _ => []

/-- The text segments one block contributes (lines 158-166): a `message`
block yields the `text` of its `text`-typed pieces (iterating a string or
absent content yields nothing), an `output_text` block yields its content
when that is a raw string, and any other block yields nothing. -/
def blockTexts (b : Block) : List String :=
  if b.btype = some "message" then
    (iterablePieces b.content).filterMap
      (fun p => if p.ptype = some "text" then some p.text else none)
  else if b.btype = some "output_text" then
    match b.content with
    | BlockContent.str s => [s]
    | _ => []
  else []

/-- The `texts` list accumulated over `response.output` (lines 157-166). -/
def responseTexts (output : List Block) : List String :=
  output.flatMap blockTexts

/-- The stripped non-empty segments kept by
`"\n\n".join(segment.strip() for segment in texts if segment.strip())`
(line 168). -/
def cleanedSegments (output : List Block) : List String :=
  (responseTexts output).filterMap
    (fun s => if pyStrip s = "" then none else some (pyStrip s))

/-- The fixed system instruction text of the prompt (lines 133-137). -/
def systemMessageText : String :=
  "Eres un resumidor y organizador de informacion RAW. Segun el objetivo de la busqueda, organiza los hallazgos en bullets o tablas y resalta cifras, URLs y datos accionables."

/-- The user prompt built at lines 116-120: the stripped objective and the
stripped content (or a placeholder when the stripped content is empty). -/
def build_prompt (content objective : String) : String :=
  "Objetivo de la busqueda: " ++ pyStrip objective ++
    "\n\nInformacion depurada de la SERP:\n" ++
    (if pyStrip content = "" then "[Sin texto procesable]" else pyStrip content)

/-- The two-role `input` sent to `client.responses.create` (lines
127-150), as (role, input_text) pairs. -/
def requestMessages (content objective : String) : List (String × String) :=
  [("system", systemMessageText), ("user", build_prompt content objective)]

/-- The error message of the `RuntimeError` raised at line 170. -/
def llmNoTextMsg : String := "La API de OpenAI no devolvio texto procesable."

/-- `summarize_text_with_llm` (lines 107-171) with the service's response
as explicit input: build the prompt, then extract the result.  If the
`output_text` attribute is truthy return it stripped; otherwise collect
the structured segments, and if their blank-line-joined concatenation is
empty raise `RuntimeError` (modelled as `Except.error`), else return it. -/
def summarize_text_with_llm (content objective : String) (resp : LLMResponse) :
    Except String String :=
  let _input := requestMessages content objective
  if optStrTruthy resp.output_text then
    Except.ok (pyStrip (resp.output_text.getD ""))
  else
    let cleaned := joinSep "\n\n" (cleanedSegments resp.output)
    if cleaned = "" then Except.error llmNoTextMsg else Except.ok cleaned

/-! ## Polling wait (`wait_for_condition`, lines 69-83, and `page_loaded`,
lines 86-95)

Wall-clock time is abstracted: a `List PollRes` gives the outcome of each
evaluation of the predicate before the deadline (`time.monotonic() <
end_time`); reaching the end of the list is the deadline passing.  A
raised exception is `Except.error`. -/

/-- Outcome of one evaluation of the predicate inside the polling loop:
it raised an exception, or returned a boolean. -/
inductive PollRes where
  | raises
  | returns (b : Bool)
deriving DecidableEq

/-- `wait_for_condition` (lines 69-83): poll until the predicate returns
true (then return normally), swallowing exceptions from the predicate;
when the deadline passes, raise `TimeoutException` (modelled as
`Except.error` with the f-string message of line 83). -/
def wait_for_condition (timeout : Nat) (polls : List PollRes) : Except String Unit :=
  match polls with
  | [] => Except.error ("Timed out after " ++ toString timeout ++ " seconds.")
  | PollRes.returns true :: _ => Except.ok ()
  | _ :: rest => wait_for_condition timeout rest

/-- `page_loaded` (lines 86-95): run the document-ready wait and convert
its outcome to a boolean, catching the `TimeoutException`. -/
def page_loaded (timeout : Nat) (polls : List PollRes) : Bool :=
  match wait_for_condition timeout polls with
  | Except.ok _ => true
  | Except.error _ => false

/-! ## Consent dismissal (`dismiss_consent`, lines 56-66) -/

/-- Outcome of one selector attempt in `dismiss_consent`: the wait timed
out, the wait or the click raised some other exception, or a clickable
button was found and clicked. -/
inductive AttemptRes where
  | timeout
  | raises
  | clickable
deriving DecidableEq

/-- `dismiss_consent` (lines 56-66): try the selectors in order, return as
soon as one click succeeds, swallow timeouts and exceptions, and fall off
the end without error when none matches.  Returns whether a button was
clicked; the function never raises. -/
def dismiss_consent : List AttemptRes → Bool
  | [] => false
  | AttemptRes.clickable :: _ => true
  | _ :: rest => dismiss_consent rest

/-! ## Navigation stage (`fetch_google_serp_html`, lines 174-197)

The browser session is an external collaborator; a `NavEnv` records
whether each driver operation succeeds and the poll outcomes of the two
document-ready waits.  The function's value is paired with the trace of
driver actions it performs, so that resource release is observable. -/

/-- Environment for one run of the navigation stage. -/
structure NavEnv where
  buildOk : Bool
  getOk : Bool
  readyPolls1 : List PollRes
  consentAttempts : List AttemptRes
  boxFound : Bool
  clearOk : Bool
  typeOk : Bool
  enterOk : Bool
  readyPolls2 : List PollRes
  pageSource : Option String
deriving DecidableEq

/-- Driver actions observable in the navigation trace. -/
inductive NavAction where
  | buildDriver
  | navigate
  | ready (ok : Bool)
  | consent (clicked : Bool)
  | findBox
  | clearBox
  | typeQuery (q : String)
  | submit
  | readSource
  | quit
deriving DecidableEq

/-- The `try` body of `fetch_google_serp_html` (lines 181-195): navigate,
best-effort ready wait, best-effort consent dismissal, locate the query
field (fatal `TimeoutException` when absent), clear, type the query,
submit, ready wait again, read `page_source`.  Each failing driver call
raises (`Except.error`) with the actions so far. -/
def fetchBody (query : String) (env : NavEnv) : Except String String × List NavAction :=
  if env.getOk = false then
    (Except.error "WebDriverException: get", [NavAction.navigate])
  else
    let t1 := [NavAction.navigate, NavAction.ready (page_loaded 10 env.readyPolls1),
      NavAction.consent (dismiss_consent env.consentAttempts)]
    if env.boxFound = false then
      (Except.error "TimeoutException", t1 ++ [NavAction.findBox])
    else if env.clearOk = false then
      (Except.error "WebDriverException: clear", t1 ++ [NavAction.findBox, NavAction.clearBox])
    else if env.typeOk = false then
      (Except.error "WebDriverException: send_keys",
        t1 ++ [NavAction.findBox, NavAction.clearBox, NavAction.typeQuery query])
    else if env.enterOk = false then
      (Except.error "WebDriverException: send_keys",
        t1 ++ [NavAction.findBox, NavAction.clearBox, NavAction.typeQuery query, NavAction.submit])
    else
      let t2 := t1 ++ [NavAction.findBox, NavAction.clearBox, NavAction.typeQuery query,
        NavAction.submit, NavAction.ready (page_loaded 10 env.readyPolls2)]
      match env.pageSource with
      | none => (Except.error "WebDriverException: page_source", t2 ++ [NavAction.readSource])
      | some s => (Except.ok s, t2 ++ [NavAction.readSource])

/-- `fetch_google_serp_html` (lines 174-197): build the driver (a failure
there propagates with no session to release), then run the `try` body
and, via `finally`, always append `driver.quit()` to the trace, whether
the body returned markup or raised. -/
def fetch_google_serp_html (query : String) (env : NavEnv) :
    Except String String × List NavAction :=
  if env.buildOk = true then
    let body := fetchBody query env
    (body.1, NavAction.buildDriver :: (body.2 ++ [NavAction.quit]))
  else (Except.error "WebDriverException: driver", [])

/-! ## Entry point (`main`, lines 266-302)

Argument parsing and file I/O are thin wrappers; a `MainEnv` holds the
parsed arguments and the external inputs (interactive prompt answer,
navigation environment, parsed tree of the fetched markup, service
response).  The result pairs the returned exit code (or a propagated
exception) with the trace of pipeline actions. -/

/-- Pipeline actions observable in a run of `main`. -/
inductive MainAction where
  | fetchSerp (query : String)
  | writeHtmlFile (path : String)
  | writeHtmlStdout
  | extractText
  | callService
  | writeSummaryFile (path : String)
  | printSummary
deriving DecidableEq

/-- Environment for one run of `main`. -/
structure MainEnv where
  argQuery : Option String
  promptInput : String
  outputPath : Option String
  objective : Option String
  summaryPath : Option String
  navEnv : NavEnv
  parsedRoot : Node
  llmResp : LLMResponse

/-- The effective query of line 269: `args.query or input(...).strip()` —
the positional argument when it is truthy, otherwise the stripped
interactive input. -/
def effQuery (argQuery : Option String) (promptInput : String) : String :=
  match argQuery with
  | some s => if s = "" then pyStrip promptInput else s
  | none => pyStrip promptInput

/-- `main` (lines 266-302): validate the query (empty → stderr message and
exit code 1), fetch the SERP markup (exceptions propagate), write the
markup to the output path or stdout, and — only when `args.objective` is
truthy — extract the text, call the summarizer and write or print the
summary.  Returns the exit code (or the propagated exception) and the
trace of actions. -/
def mainRun (env : MainEnv) : Except String Nat × List MainAction :=
  let query := effQuery env.argQuery env.promptInput
  if query = "" then (Except.ok 1, [])
  else
    match (fetch_google_serp_html query env.navEnv).1 with
    | Except.error e => (Except.error e, [MainAction.fetchSerp query])
    | Except.ok _html =>
      let htmlAct := match env.outputPath with
        | some p => MainAction.writeHtmlFile p
        | none => MainAction.writeHtmlStdout
      let pre := [MainAction.fetchSerp query, htmlAct]
      if optStrTruthy env.objective then
        match summarize_text_with_llm (extract_text_from_html env.parsedRoot)
          (env.objective.getD "") env.llmResp with
        | Except.error e =>
          (Except.error e, pre ++ [MainAction.extractText, MainAction.callService])
        | Except.ok _s =>
          let sumAct := match env.summaryPath with
            | some p => MainAction.writeSummaryFile p
            | none => MainAction.printSummary
          (Except.ok 0, pre ++ [MainAction.extractText, MainAction.callService, sumAct])
      else (Except.ok 0, pre)

/-! ## Clean text, and concrete inputs used in examples -/

/-- A clean output line: stripped, non-empty, and free of line
terminators. -/
def isCleanLine (l : String) : Bool :=
  (pyStrip l == l) && !(l == "") && l.data.all (fun c => !(c == '\n') && !(c == '\r'))

/-- Clean, line-oriented text with no blank lines: a newline-join of clean
lines. -/
def IsCleanText (s : String) : Prop :=
  ∃ lines, s = joinSep "\n" lines ∧ ∀ l ∈ lines, isCleanLine l = true

/-- A navigation environment in which every driver operation succeeds. -/
def navOkEnv : NavEnv :=
  ⟨true, true, [], [], true, true, true, true, [], some "<html></html>"⟩

/-- A run whose positional query argument is whitespace-only. -/
def c1CexEnv : MainEnv :=
  ⟨some "   ", "", none, none, none, navOkEnv, Node.text "", ⟨none, []⟩⟩

/-- A run whose positional query argument is `"hello"`. -/
def c1WitEnv : MainEnv :=
  ⟨some "hello", "", none, none, none, navOkEnv, Node.text "", ⟨none, []⟩⟩

/-- A run in which `--objective` is supplied with the empty string. -/
def c9CexEnv : MainEnv :=
  ⟨some "best hotels in a coastal city", "", none, some "", none, navOkEnv,
    Node.text "", ⟨none, []⟩⟩

/-- A run in which `--objective` carries non-empty text and the service
answers with a consolidated summary. -/
def c9WitEnv : MainEnv :=
  ⟨some "best hotels in a coastal city", "", none, some "Find price ranges", none, navOkEnv,
    Node.text "page text", ⟨some "mock summary", []⟩⟩

/-- A structured `message` block carrying the text `"Summary B"`. -/
def summaryBBlock : Block :=
  ⟨some "message", BlockContent.pieces [⟨some "text", "Summary B"⟩]⟩

/-- A parsed page: a `div` holding padded visible text and a `script`
subtree. -/
def c7WitRoot : Node :=
  Node.elem "div" [Node.text "  hi  ", Node.elem "script" [Node.text "X"]]

/-! ## Helper lemmas: strings and stripping -/

theorem data_mk (l : List Char) : (String.mk l).data = l := rfl

theorem mk_data (s : String) : String.mk s.data = s := rfl

theorem string_eq_empty_iff (s : String) : s = "" ↔ s.data = [] := by
  constructor
  · intro h
    rw [h]
  · intro h
    cases s with
    | mk d =>
      have hd : d = [] := h
      rw [hd]

theorem pyStrip_data (s : String) : (pyStrip s).data = stripChars s.data := rfl

theorem dropWhile_head_not {α : Type} (p : α → Bool) :
    ∀ (l : List α) (c : α), (l.dropWhile p).head? = some c → p c = false := by
  intro l
  induction l with
  | nil =>
    intro c h
    simp [List.dropWhile] at h
  | cons a t ih =>
    intro c h
    rw [List.dropWhile_cons] at h
    by_cases hp : p a = true
    · rw [if_pos hp] at h
      exact ih c h
    · rw [if_neg hp] at h
      simp only [List.head?_cons, Option.some.injEq] at h
      rw [← h]
      simpa using hp

theorem mem_dropWhile_of {α : Type} (p : α → Bool) :
    ∀ (l : List α) (c : α), c ∈ l → p c = false → c ∈ l.dropWhile p := by
  intro l
  induction l with
  | nil =>
    intro c hc
    cases hc
  | cons a t ih =>
    intro c hc hpc
    rw [List.dropWhile_cons]
    by_cases hp : p a = true
    · rw [if_pos hp]
      rcases List.mem_cons.mp hc with rfl | hc2
      · rw [hpc] at hp
        cases hp
      · exact ih c hc2 hpc
    · rw [if_neg hp]
      exact hc

theorem dropWhile_eq_self_of_head {α : Type} (p : α → Bool) (l : List α)
    (h : ∀ c, l.head? = some c → p c = false) : l.dropWhile p = l := by
  cases l with
  | nil => rfl
  | cons a t =>
    rw [List.dropWhile_cons, if_neg]
    rw [h a rfl]
    simp

theorem stripChars_subset {c : Char} {l : List Char} (h : c ∈ stripChars l) : c ∈ l := by
  unfold stripChars at h
  rw [List.mem_reverse] at h
  have h2 := (List.dropWhile_sublist pyIsSpace).subset h
  rw [List.mem_reverse] at h2
  exact (List.dropWhile_sublist pyIsSpace).subset h2

theorem stripChars_prefix (l : List Char) : stripChars l <+: l.dropWhile pyIsSpace := by
  unfold stripChars
  obtain ⟨t, ht⟩ := List.dropWhile_suffix (l := (l.dropWhile pyIsSpace).reverse) pyIsSpace
  refine ⟨t.reverse, ?_⟩
  have h2 := congrArg List.reverse ht
  simpa [List.reverse_append] using h2

theorem head_stripChars {l : List Char} {c : Char}
    (h : (stripChars l).head? = some c) : pyIsSpace c = false := by
  have hne : stripChars l ≠ [] := by
    intro he
    rw [he] at h
    cases h
  obtain ⟨t, ht⟩ := stripChars_prefix l
  have h2 : (l.dropWhile pyIsSpace).head? = some c := by
    rw [← ht, List.head?_append_of_ne_nil _ hne]
    exact h
  exact dropWhile_head_not pyIsSpace _ c h2

theorem getLast_stripChars {l : List Char} {c : Char}
    (h : (stripChars l).getLast? = some c) : pyIsSpace c = false := by
  unfold stripChars at h
  rw [List.getLast?_reverse] at h
  exact dropWhile_head_not pyIsSpace _ c h

theorem stripChars_eq_self {l : List Char}
    (h1 : ∀ c, l.head? = some c → pyIsSpace c = false)
    (h2 : ∀ c, l.getLast? = some c → pyIsSpace c = false) :
    stripChars l = l := by
  unfold stripChars
  rw [dropWhile_eq_self_of_head pyIsSpace l h1]
  rw [dropWhile_eq_self_of_head pyIsSpace l.reverse
    (fun c hc => h2 c (by rwa [List.head?_reverse] at hc))]
  exact List.reverse_reverse l

theorem stripChars_ne_nil {l : List Char} {c : Char}
    (hc : c ∈ l) (hp : pyIsSpace c = false) : stripChars l ≠ [] := by
  have m1 := mem_dropWhile_of pyIsSpace l c hc hp
  have m2 : c ∈ (l.dropWhile pyIsSpace).reverse := List.mem_reverse.mpr m1
  have m3 := mem_dropWhile_of pyIsSpace _ c m2 hp
  have m4 : c ∈ stripChars l := List.mem_reverse.mpr m3
  intro he
  rw [he] at m4
  cases m4

theorem pyStrip_of_stripped_ne {x : String} (h : pyStrip x ≠ "") :
    pyStrip (pyStrip x) ≠ "" := by
  have hed : (pyStrip x).data ≠ [] := fun hn => h ((string_eq_empty_iff _).mpr hn)
  obtain ⟨c, t, hct⟩ : ∃ c t, (pyStrip x).data = c :: t := by
    cases hd : (pyStrip x).data with
    | nil => exact absurd hd hed
    | cons a t => exact ⟨a, t, rfl⟩
  have hcs : pyIsSpace c = false := by
    apply head_stripChars (l := x.data)
    rw [← pyStrip_data, hct]
    rfl
  have hmem : c ∈ (pyStrip x).data := by
    rw [hct]
    exact List.mem_cons_self c t
  intro hcontra
  exact stripChars_ne_nil hmem hcs ((string_eq_empty_iff _).mp hcontra)

/-! ## Helper lemmas: joining and splitting lines -/

theorem joinSep_data_cons (sep a b : String) (rest : List String) :
    (joinSep sep (a :: b :: rest)).data =
      a.data ++ sep.data ++ (joinSep sep (b :: rest)).data := by
  simp [joinSep, String.data_append]

theorem joinSep_ne_empty {sep : String} {l : List String}
    (h : ∀ x ∈ l, x ≠ "") (hl : l ≠ []) : joinSep sep l ≠ "" := by
  cases l with
  | nil => exact absurd rfl hl
  | cons a rest =>
    cases rest with
    | nil =>
      simpa [joinSep] using h a (by simp)
    | cons b r =>
      intro he
      have hd := (string_eq_empty_iff _).mp he
      rw [joinSep_data_cons] at hd
      have ha : a.data = [] := (List.append_eq_nil.mp (List.append_eq_nil.mp hd).1).1
      exact h a (by simp) ((string_eq_empty_iff a).mpr ha)

theorem joinSep_eq_empty_iff {sep : String} {l : List String}
    (h : ∀ x ∈ l, x ≠ "") : joinSep sep l = "" ↔ l = [] := by
  constructor
  · intro he
    by_contra hl
    exact joinSep_ne_empty h hl he
  · intro hl
    rw [hl]
    rfl

theorem splitAux_nofree : ∀ (A acc : List Char), (∀ c ∈ A, c ≠ '\n' ∧ c ≠ '\r') →
    pySplitlinesAux A acc false =
      if acc.reverse ++ A = [] then [] else [acc.reverse ++ A] := by
  intro A
  induction A with
  | nil =>
    intro acc _
    cases acc <;> simp [pySplitlinesAux]
  | cons c A ih =>
    intro acc h
    have hc := h c (List.mem_cons_self c A)
    simp only [pySplitlinesAux, Bool.false_and, Bool.false_eq_true, if_false,
      if_neg hc.1, if_neg hc.2]
    rw [ih (c :: acc) (fun x hx => h x (List.mem_cons_of_mem c hx))]
    have hne1 : (c :: acc).reverse ++ A ≠ [] := by
      simp [List.reverse_cons]
    have hne2 : acc.reverse ++ (c :: A) ≠ [] := by
      simp
    rw [if_neg hne1, if_neg hne2]
    simp [List.reverse_cons, List.append_assoc]

theorem splitAux_newline : ∀ (A : List Char) (acc R : List Char),
    (∀ c ∈ A, c ≠ '\n' ∧ c ≠ '\r') →
    pySplitlinesAux (A ++ '\n' :: R) acc false =
      (acc.reverse ++ A) :: pySplitlinesAux R [] false := by
  intro A
  induction A with
  | nil =>
    intro acc R _
    simp [pySplitlinesAux]
  | cons c A ih =>
    intro acc R h
    have hc := h c (List.mem_cons_self c A)
    simp only [List.cons_append, pySplitlinesAux, Bool.false_and, Bool.false_eq_true, if_false,
      if_neg hc.1, if_neg hc.2, List.append_eq]
    rw [ih (c :: acc) R (fun x hx => h x (List.mem_cons_of_mem c hx))]
    simp [List.reverse_cons, List.append_assoc]

theorem splitlines_joinSep : ∀ (lines : List String),
    (∀ l ∈ lines, l ≠ "" ∧ ∀ c ∈ l.data, c ≠ '\n' ∧ c ≠ '\r') →
    pySplitlines (joinSep "\n" lines) = lines := by
  intro lines
  induction lines with
  | nil =>
    intro _
    rfl
  | cons a rest ih =>
    intro h
    cases rest with
    | nil =>
      have ha := h a (by simp)
      show (pySplitlinesAux (joinSep "\n" [a]).data [] false).map (fun l => String.mk l) = [a]
      rw [show joinSep "\n" [a] = a from rfl]
      rw [splitAux_nofree a.data [] ha.2]
      have hne : a.data ≠ [] := fun hn => ha.1 ((string_eq_empty_iff a).mpr hn)
      rw [if_neg (by simpa using hne)]
      simp [mk_data]
    | cons b r =>
      have ha := h a (by simp)
      show (pySplitlinesAux (joinSep "\n" (a :: b :: r)).data [] false).map
        (fun l => String.mk l) = a :: b :: r
      have hdata : (joinSep "\n" (a :: b :: r)).data =
          a.data ++ '\n' :: (joinSep "\n" (b :: r)).data := by
        rw [joinSep_data_cons]
        simp [show ("\n" : String).data = ['\n'] from rfl]
      rw [hdata, splitAux_newline a.data [] _ ha.2]
      simp only [List.reverse_nil, List.nil_append, List.map_cons, mk_data]
      have htail := ih (fun l hl => h l (List.mem_cons_of_mem a hl))
      exact congrArg (a :: ·) htail

theorem mem_splitAux_free : ∀ (L acc : List Char) (flag : Bool),
    (∀ c ∈ acc, c ≠ '\n' ∧ c ≠ '\r') →
    ∀ piece ∈ pySplitlinesAux L acc flag, ∀ c ∈ piece, c ≠ '\n' ∧ c ≠ '\r' := by
  intro L
  induction L with
  | nil =>
    intro acc flag hacc piece hp
    by_cases he : acc.isEmpty
    · simp [pySplitlinesAux, he] at hp
    · simp only [pySplitlinesAux, if_neg he, List.mem_singleton] at hp
      subst hp
      exact fun c hc => hacc c (List.mem_reverse.mp hc)
  | cons d rest ih =>
    intro acc flag hacc piece hp
    simp only [pySplitlinesAux] at hp
    by_cases h1 : (flag && decide (d = '\n')) = true
    · rw [if_pos h1] at hp
      exact ih [] false (by simp) piece hp
    · rw [if_neg h1] at hp
      by_cases h2 : d = '\n'
      · rw [if_pos h2] at hp
        rcases List.mem_cons.mp hp with rfl | hp2
        · exact fun c hc => hacc c (List.mem_reverse.mp hc)
        · exact ih [] false (by simp) piece hp2
      · rw [if_neg h2] at hp
        by_cases h3 : d = '\r'
        · rw [if_pos h3] at hp
          rcases List.mem_cons.mp hp with rfl | hp2
          · exact fun c hc => hacc c (List.mem_reverse.mp hc)
          · exact ih [] true (by simp) piece hp2
        · rw [if_neg h3] at hp
          refine ih (d :: acc) false ?_ piece hp
          intro c hc
          rcases List.mem_cons.mp hc with rfl | hc2
          · exact ⟨h2, h3⟩
          · exact hacc c hc2

theorem mem_pySplitlines_free {s l : String} (hl : l ∈ pySplitlines s) :
    ∀ c ∈ l.data, c ≠ '\n' ∧ c ≠ '\r' := by
  rcases List.mem_map.mp hl with ⟨piece, hp, rfl⟩
  intro c hc
  exact mem_splitAux_free s.data [] false (by simp) piece hp c hc

/-! ## Helper lemmas: clean lines -/

theorem isCleanLine_spec {l : String} (h : isCleanLine l = true) :
    pyStrip l = l ∧ l ≠ "" ∧ ∀ c ∈ l.data, c ≠ '\n' ∧ c ≠ '\r' := by
  simp only [isCleanLine, Bool.and_eq_true, beq_iff_eq, Bool.not_eq_true',
    beq_eq_false_iff_ne, ne_eq, List.all_eq_true] at h
  obtain ⟨⟨h1, h2⟩, h3⟩ := h
  refine ⟨h1, h2, fun c hc => ?_⟩
  have h4 := h3 c hc
  constructor
  · intro he
    simp [he] at h4
  · intro he
    simp [he] at h4

theorem clean_strip_head {l : String} (hstrip : pyStrip l = l) (hne : l ≠ "") :
    ∃ c, l.data.head? = some c ∧ pyIsSpace c = false := by
  have hsc : stripChars l.data = l.data := by
    have h := congrArg String.data hstrip
    rwa [pyStrip_data] at h
  cases hld : l.data with
  | nil => exact absurd ((string_eq_empty_iff l).mpr hld) hne
  | cons a t =>
    refine ⟨a, by simp [hld], ?_⟩
    apply head_stripChars (l := l.data)
    rw [hsc]
    simp [hld]

theorem clean_strip_last {l : String} (hstrip : pyStrip l = l) (hne : l ≠ "") :
    ∃ c, l.data.getLast? = some c ∧ pyIsSpace c = false := by
  have hsc : stripChars l.data = l.data := by
    have h := congrArg String.data hstrip
    rwa [pyStrip_data] at h
  cases hr : l.data.reverse with
  | nil =>
    exact absurd ((string_eq_empty_iff l).mpr (List.reverse_eq_nil_iff.mp hr)) hne
  | cons a t =>
    have hg : l.data.getLast? = some a := by
      rw [← List.head?_reverse, hr]
      rfl
    refine ⟨a, hg, ?_⟩
    apply getLast_stripChars (l := l.data)
    rw [hsc]
    exact hg

theorem joined_head {a : String} (rest : List String) (ha : a.data ≠ []) :
    (joinSep "\n" (a :: rest)).data.head? = a.data.head? := by
  cases rest with
  | nil => rfl
  | cons b r =>
    rw [joinSep_data_cons]
    rw [List.head?_append_of_ne_nil _ (by simp [ha])]
    exact List.head?_append_of_ne_nil _ ha

theorem joined_last (a : String) (rest : List String)
    (h : ∀ l ∈ a :: rest, l ≠ "") :
    ∃ z ∈ a :: rest, (joinSep "\n" (a :: rest)).data.getLast? = z.data.getLast? := by
  induction rest generalizing a with
  | nil => exact ⟨a, by simp, rfl⟩
  | cons b r ih =>
    obtain ⟨z, hz, he⟩ := ih b (fun l hl => h l (List.mem_cons_of_mem a hl))
    refine ⟨z, List.mem_cons_of_mem a hz, ?_⟩
    rw [joinSep_data_cons]
    have hX : (joinSep "\n" (b :: r)).data ≠ [] := by
      intro hn
      exact joinSep_ne_empty
        (fun l hl => h l (List.mem_cons_of_mem a hl)) (by simp)
        ((string_eq_empty_iff _).mpr hn)
    rw [List.getLast?_append_of_ne_nil _ hX]
    exact he

theorem clean_join_strip {lines : List String}
    (h : ∀ l ∈ lines, isCleanLine l = true) :
    pyStrip (joinSep "\n" lines) = joinSep "\n" lines := by
  cases lines with
  | nil => rfl
  | cons a rest =>
    obtain ⟨ha1, ha2, _⟩ := isCleanLine_spec (h a (by simp))
    have haD : a.data ≠ [] := fun hn => ha2 ((string_eq_empty_iff a).mpr hn)
    have h1 : ∀ c, (joinSep "\n" (a :: rest)).data.head? = some c → pyIsSpace c = false := by
      intro c hc
      rw [joined_head rest haD] at hc
      obtain ⟨c0, hc0, hs0⟩ := clean_strip_head ha1 ha2
      rw [hc0] at hc
      cases hc
      exact hs0
    have h2 : ∀ c, (joinSep "\n" (a :: rest)).data.getLast? = some c →
        pyIsSpace c = false := by
      intro c hc
      obtain ⟨z, hz, he⟩ := joined_last a rest
        (fun l hl => (isCleanLine_spec (h l hl)).2.1)
      rw [he] at hc
      obtain ⟨hz1, hz2, _⟩ := isCleanLine_spec (h z hz)
      obtain ⟨c1, hc1, hs1⟩ := clean_strip_last hz1 hz2
      rw [hc1] at hc
      cases hc
      exact hs1
    show String.mk (stripChars (joinSep "\n" (a :: rest)).data) = _
    rw [stripChars_eq_self h1 h2]

/-- The lines of the extractor's output are exactly the stripped non-empty
lines of the parser text: the final join re-splits to the list it
joined. -/
theorem extract_lines (root : Node) :
    pySplitlines (extract_text_from_html root) =
      ((pySplitlines (get_text root)).map pyStrip).filter (fun l => !(l == "")) := by
  apply splitlines_joinSep
  intro l hl
  rcases List.mem_filter.mp hl with ⟨hmap, hne⟩
  constructor
  · simpa using hne
  · rcases List.mem_map.mp hmap with ⟨y, hy, rfl⟩
    intro c hc
    have hcy : c ∈ y.data := stripChars_subset (l := y.data) hc
    exact mem_pySplitlines_free hy c hcy

theorem mem_cleanedSegments_ne {output : List Block} {x : String}
    (hx : x ∈ cleanedSegments output) : x ≠ "" := by
  unfold cleanedSegments at hx
  rcases List.mem_filterMap.mp hx with ⟨s, _, hf⟩
  by_cases h : pyStrip s = ""
  · rw [if_pos h] at hf
    cases hf
  · rw [if_neg h] at hf
    injection hf with hf
    rw [← hf]
    exact h

/-! ## Claims -/

/-- C1, counterexample: the run whose positional query argument is the
whitespace-only string `"   "` is accepted, not rejected — `main` returns
exit code 0 and proceeds to fetch with the query unmodified, although the
query consists only of whitespace (`pyStrip "   " = ""`). -/
theorem C1_counterexample :
    mainRun c1CexEnv =
      (Except.ok 0, [MainAction.fetchSerp "   ", MainAction.writeHtmlStdout]) ∧
    pyStrip "   " = "" ∧ c1CexEnv.argQuery = some "   " :=
  ⟨rfl, rfl, rfl⟩

/-- C1 (amended): `main` rejects with exit code 1 (and performs no
action) exactly when the effective query is the empty string — that is,
when the positional argument is omitted or empty and the interactive
input strips to empty; any non-empty effective query (including a
whitespace-only positional argument) is accepted and passed to the
navigation stage unmodified. -/
theorem C1_claim (env : MainEnv) :
    (mainRun env = (Except.ok 1, []) ↔ effQuery env.argQuery env.promptInput = "") ∧
    (effQuery env.argQuery env.promptInput ≠ "" →
      MainAction.fetchSerp (effQuery env.argQuery env.promptInput) ∈ (mainRun env).2) ∧
    (∀ s, env.argQuery = some s → s ≠ "" → effQuery env.argQuery env.promptInput = s) := by
  refine ⟨?_, ?_, ?_⟩
  · unfold mainRun
    by_cases hq : effQuery env.argQuery env.promptInput = ""
    · simp [hq]
    · rw [if_neg hq]
      simp only [hq, iff_false]
      (repeat' split) <;>
        (try cases (summarize_text_with_llm (extract_text_from_html env.parsedRoot) (env.objective.getD "") env.llmResp)) <;> simp
  · intro hne
    unfold mainRun
    rw [if_neg hne]
    (repeat' split) <;>
      (try cases (summarize_text_with_llm (extract_text_from_html env.parsedRoot) (env.objective.getD "") env.llmResp)) <;> simp
  · intro s hs hsne
    simp [effQuery, hs, hsne]

/-- C1, witness: a run with positional argument `"hello"` proceeds to the
navigation stage with exactly that query. -/
theorem C1_witness :
    MainAction.fetchSerp (effQuery c1WitEnv.argQuery c1WitEnv.promptInput) ∈
      (mainRun c1WitEnv).2 :=
  (C1_claim c1WitEnv).2.1 (by decide)

/-- C2, counterexample: a response whose consolidated `output_text` field
is the whitespace-only string `" "` and whose structured output is empty
yields *no* error — the summarizer returns the empty string — although
neither extraction path yields non-empty text (`pyStrip " " = ""` and
there are no segments). -/
theorem C2_counterexample :
    summarize_text_with_llm "" "" ⟨some " ", []⟩ = Except.ok "" ∧
    pyStrip " " = "" ∧ cleanedSegments ([] : List Block) = [] :=
  ⟨rfl, rfl, rfl⟩

/-- C2 (amended): `summarize_text_with_llm` raises the no-usable-text
`RuntimeError` exactly when the consolidated `output_text` field is
absent or the empty string (Python-falsy) and no structured block yields
a non-empty trimmed segment; a whitespace-only consolidated field counts
as present and its stripped (empty) value is returned without error. -/
theorem C2_claim (content objective : String) (resp : LLMResponse) :
    summarize_text_with_llm content objective resp = Except.error llmNoTextMsg ↔
      optStrTruthy resp.output_text = false ∧ cleanedSegments resp.output = [] := by
  by_cases ht : optStrTruthy resp.output_text = true
  · simp [summarize_text_with_llm, ht]
  · have ht2 : optStrTruthy resp.output_text = false := by
      simpa using ht
    by_cases hseg : cleanedSegments resp.output = []
    · simp [summarize_text_with_llm, ht2, hseg, joinSep]
    · have hne : joinSep "\n\n" (cleanedSegments resp.output) ≠ "" :=
        joinSep_ne_empty (fun x hx => mem_cleanedSegments_ne hx) hseg
      simp [summarize_text_with_llm, ht2, hseg, hne]

/-- C3: when the service response provides a truthy consolidated
`output_text` field, the summarizer returns its stripped text and the
structured blocks are never consulted — the result is the same whatever
the structured output holds (e.g. `"Summary A"` wins over a structured
`"Summary B"`). -/
theorem C3_claim (content objective s : String) (output : List Block) (hs : s ≠ "") :
    summarize_text_with_llm content objective ⟨some s, output⟩ = Except.ok (pyStrip s) ∧
    summarize_text_with_llm content objective ⟨some s, output⟩ =
      summarize_text_with_llm content objective ⟨some s, []⟩ := by
  have ht : optStrTruthy (some s) = true := by
    simp [optStrTruthy, hs]
  constructor
  · simp [summarize_text_with_llm, ht]
  · simp [summarize_text_with_llm, ht]

/-- C3, witness: a response holding both the consolidated `"Summary A"`
and a structured block with `"Summary B"` returns `"Summary A"`. -/
theorem C3_witness :
    summarize_text_with_llm "" "" ⟨some "Summary A", [summaryBBlock]⟩ =
      Except.ok "Summary A" :=
  (C3_claim "" "" "Summary A" [summaryBBlock] (by decide)).1

/-- C4, counterexample: the objective is not embedded character for
character — the objectives `" x "` and `"x"` are distinct yet produce the
identical request, so the raw objective `" x "` does not survive into the
user message. -/
theorem C4_counterexample :
    requestMessages "" " x " = requestMessages "" "x" ∧ " x " ≠ "x" :=
  ⟨rfl, by decide⟩

/-- C4 (amended): the objective is stripped of leading and trailing
whitespace and the *stripped* objective appears verbatim (as a contiguous
substring) in the user message of the prompt; an objective with no
leading or trailing whitespace is therefore passed through verbatim. -/
theorem C4_claim (content objective : String) :
    (pyStrip objective).data <:+: (build_prompt content objective).data ∧
    (pyStrip objective = objective →
      objective.data <:+: (build_prompt content objective).data) := by
  have base : (pyStrip objective).data <:+: (build_prompt content objective).data := by
    refine ⟨("Objetivo de la busqueda: " : String).data,
      ("\n\nInformacion depurada de la SERP:\n" : String).data ++
        (if pyStrip content = "" then ("[Sin texto procesable]" : String)
          else pyStrip content).data, ?_⟩
    simp [build_prompt, String.data_append, List.append_assoc]
  refine ⟨base, fun h => ?_⟩
  have h2 : objective.data = (pyStrip objective).data := by
    rw [h]
  rw [h2]
  exact base

/-- C4, witness: the objective `"Find price ranges"` (no surrounding
whitespace) appears verbatim in the built prompt. -/
theorem C4_witness :
    (pyStrip "Find price ranges").data <:+: (build_prompt "" "Find price ranges").data ∧
    ("Find price ranges" : String).data <:+: (build_prompt "" "Find price ranges").data :=
  ⟨(C4_claim "" "Find price ranges").1,
    (C4_claim "" "Find price ranges").2 (by decide)⟩

/-- C5, counterexample: the polling-wait helper does not return a
success/failure result on timeout — it raises: with a single poll whose
predicate returns false, `wait_for_condition` ends in the raised
`TimeoutException` (modelled as `Except.error`). -/
theorem C5_counterexample :
    wait_for_condition 10 [PollRes.returns false] =
      Except.error "Timed out after 10 seconds." :=
  rfl

/-- C5 (amended): `wait_for_condition` raises `TimeoutException` when no
poll returns true before the deadline; the document-ready wrapper
`page_loaded` catches that exception and converts it to the boolean
`false` (and returns `true` when some poll succeeds), so the
document-ready wait itself never propagates the timeout — but the
generic helper throws rather than returning a result. -/
theorem C5_claim (timeout : Nat) (polls : List PollRes) :
    (PollRes.returns true ∉ polls →
      wait_for_condition timeout polls =
        Except.error ("Timed out after " ++ toString timeout ++ " seconds.") ∧
      page_loaded timeout polls = false) ∧
    (PollRes.returns true ∈ polls →
      wait_for_condition timeout polls = Except.ok () ∧
      page_loaded timeout polls = true) := by
  induction polls with
  | nil =>
    constructor
    · intro _
      exact ⟨rfl, rfl⟩
    · intro h
      cases h
  | cons p rest ih =>
    constructor
    · intro hnm
      have hp : p ≠ PollRes.returns true :=
        fun he => hnm (he ▸ List.mem_cons_self p rest)
      have hr : PollRes.returns true ∉ rest :=
        fun hm => hnm (List.mem_cons_of_mem p hm)
      have hw := (ih.1 hr).1
      have step : wait_for_condition timeout (p :: rest) =
          wait_for_condition timeout rest := by
        cases p with
        | raises => rfl
        | returns b =>
          cases b with
          | false => rfl
          | true => exact absurd rfl hp
      refine ⟨by rw [step]; exact hw, ?_⟩
      unfold page_loaded
      rw [step, hw]
    · intro hm
      cases p with
      | returns b =>
        cases b with
        | true => exact ⟨rfl, rfl⟩
        | false =>
          have hm2 : PollRes.returns true ∈ rest := by
            rcases List.mem_cons.mp hm with h | h
            · exact absurd h (by decide)
            · exact h
          have hw := (ih.2 hm2).1
          have step : wait_for_condition timeout (PollRes.returns false :: rest) =
              wait_for_condition timeout rest := rfl
          refine ⟨by rw [step]; exact hw, ?_⟩
          unfold page_loaded
          rw [step, hw]
      | raises =>
        have hm2 : PollRes.returns true ∈ rest := by
          rcases List.mem_cons.mp hm with h | h
          · exact absurd h (by decide)
          · exact h
        have hw := (ih.2 hm2).1
        have step : wait_for_condition timeout (PollRes.raises :: rest) =
            wait_for_condition timeout rest := rfl
        refine ⟨by rw [step]; exact hw, ?_⟩
        unfold page_loaded
        rw [step, hw]

/-- C5, witness: a wait whose only poll raises ends in the timeout
exception, and the document-ready wrapper turns it into `false`. -/
theorem C5_witness :
    wait_for_condition 10 [PollRes.raises] =
      Except.error "Timed out after 10 seconds." ∧
    page_loaded 10 [PollRes.raises] = false :=
  (C5_claim 10 [PollRes.raises]).1 (by decide)

/-- C6: once the browser session is acquired, every exit path of the
navigation stage — normal return as well as any failure during
navigation, readiness polling, consent dismissal, query-field location,
typing, submission or page-source retrieval — releases the session: the
action trace starts with the driver build and always ends with
`driver.quit`. -/
theorem C6_claim (query : String) (env : NavEnv) (h : env.buildOk = true) :
    (fetch_google_serp_html query env).2.head? = some NavAction.buildDriver ∧
    (fetch_google_serp_html query env).2.getLast? = some NavAction.quit := by
  unfold fetch_google_serp_html
  rw [if_pos h]
  refine ⟨rfl, ?_⟩
  show (NavAction.buildDriver :: ((fetchBody query env).2 ++ [NavAction.quit])).getLast? = _
  rw [← List.cons_append]
  exact List.getLast?_concat _

/-- C6, witness: a fully successful navigation run builds the driver
first and quits it last. -/
theorem C6_witness :
    (fetch_google_serp_html "best hotels in a coastal city" navOkEnv).2.head? =
      some NavAction.buildDriver ∧
    (fetch_google_serp_html "best hotels in a coastal city" navOkEnv).2.getLast? =
      some NavAction.quit :=
  C6_claim "best hotels in a coastal city" navOkEnv rfl

/-- C7: for every parsed markup input, no line of the extractor's output
is empty or whitespace-only. -/
theorem C7_claim (root : Node) (l : String)
    (hl : l ∈ pySplitlines (extract_text_from_html root)) : pyStrip l ≠ "" := by
  rw [extract_lines] at hl
  rcases List.mem_filter.mp hl with ⟨hmap, hne⟩
  rcases List.mem_map.mp hmap with ⟨y, _, rfl⟩
  exact pyStrip_of_stripped_ne (by simpa using hne)

/-- C7, witness: the single output line of a page holding padded text and
a script subtree is not whitespace-only. -/
theorem C7_witness : pyStrip "hi" ≠ "" :=
  C7_claim c7WitRoot "hi" (by decide)

/-- C8: text extraction is idempotent on already-clean text — applied to
markup that wraps clean line-oriented text (stripped, non-blank lines) in
no extraneous tags, the extractor returns the text unchanged. -/
theorem C8_claim (s : String) (h : IsCleanText s) :
    extract_text_from_html (Node.text s) = s := by
  obtain ⟨lines, rfl, hcl⟩ := h
  cases lines with
  | nil => rfl
  | cons a rest =>
    have hne : joinSep "\n" (a :: rest) ≠ "" :=
      joinSep_ne_empty (fun l hl => (isCleanLine_spec (hcl l hl)).2.1) (by simp)
    have hstrip : pyStrip (joinSep "\n" (a :: rest)) = joinSep "\n" (a :: rest) :=
      clean_join_strip hcl
    have hget : get_text (Node.text (joinSep "\n" (a :: rest))) =
        joinSep "\n" (a :: rest) := by
      unfold get_text
      show joinSep "\n" ((([joinSep "\n" (a :: rest)]).map pyStrip).filter
        (fun s => !(s == ""))) = _
      rw [show ([joinSep "\n" (a :: rest)]).map pyStrip = [joinSep "\n" (a :: rest)] from
        by simp [hstrip]]
      rw [show ([joinSep "\n" (a :: rest)]).filter (fun s => !(s == "")) =
        [joinSep "\n" (a :: rest)] from by simp [hne]]
      rfl
    show joinSep "\n" (((pySplitlines (get_text (Node.text (joinSep "\n" (a :: rest))))).map
      pyStrip).filter (fun l => !(l == ""))) = _
    rw [hget]
    rw [splitlines_joinSep (a :: rest)
      (fun l hl => ⟨(isCleanLine_spec (hcl l hl)).2.1, (isCleanLine_spec (hcl l hl)).2.2⟩)]
    have hmap : (a :: rest).map pyStrip = a :: rest := by
      have h2 := List.map_congr_left (l := a :: rest) (f := pyStrip) (g := id)
        (fun x hx => (isCleanLine_spec (hcl x hx)).1)
      rw [List.map_id] at h2
      exact h2
    have hfil : (a :: rest).filter (fun l => !(l == "")) = a :: rest :=
      List.filter_eq_self.mpr
        (fun x hx => by simp [(isCleanLine_spec (hcl x hx)).2.1])
    rw [hmap, hfil]

/-- C8, witness: the clean two-line text `"Alpha\nBeta"` survives
extraction unchanged. -/
theorem C8_witness : extract_text_from_html (Node.text "Alpha\nBeta") = "Alpha\nBeta" :=
  C8_claim "Alpha\nBeta" ⟨["Alpha", "Beta"], rfl, by decide⟩

/-- C9, counterexample: a run in which `--objective` is *present* but
carries the empty string skips extraction and summarization entirely —
the service is never called — contradicting the claim that presence of
the option triggers those stages. -/
theorem C9_counterexample :
    mainRun c9CexEnv =
      (Except.ok 0, [MainAction.fetchSerp "best hotels in a coastal city",
        MainAction.writeHtmlStdout]) ∧
    c9CexEnv.objective = some "" ∧
    MainAction.callService ∉ (mainRun c9CexEnv).2 :=
  ⟨rfl, rfl, by decide⟩

/-- C9 (amended): the extraction and summarization stages run exactly
when the `--objective` value is truthy (present and non-empty): a falsy
objective (absent or empty string) never invokes the service nor the
extractor, while a truthy objective on a run that passes validation and
whose navigation succeeds performs both. -/
theorem C9_claim (env : MainEnv) :
    (optStrTruthy env.objective = false →
      MainAction.callService ∉ (mainRun env).2 ∧
      MainAction.extractText ∉ (mainRun env).2) ∧
    (optStrTruthy env.objective = true →
      effQuery env.argQuery env.promptInput ≠ "" →
      (fetch_google_serp_html (effQuery env.argQuery env.promptInput) env.navEnv).1.isOk
        = true →
      MainAction.callService ∈ (mainRun env).2 ∧
      MainAction.extractText ∈ (mainRun env).2) := by
  constructor
  · intro hobj
    unfold mainRun
    by_cases hq : effQuery env.argQuery env.promptInput = ""
    · simp [hq]
    · rw [if_neg hq]
      split
      · simp
      · rw [if_neg (by simp [hobj])]
        cases env.outputPath <;> simp
  · intro hobj hq hfetch
    unfold mainRun
    rw [if_neg hq]
    cases hfe : (fetch_google_serp_html (effQuery env.argQuery env.promptInput)
        env.navEnv).1 with
    | error e =>
      rw [hfe] at hfetch
      simp [Except.isOk, Except.toBool] at hfetch
    | ok html =>
      dsimp only []
      rw [if_pos hobj]
      cases (summarize_text_with_llm (extract_text_from_html env.parsedRoot)
        (env.objective.getD "") env.llmResp) <;>
        cases env.outputPath <;> simp

/-- C9, witness: with objective `"Find price ranges"` and a successful
run, the extractor runs and the service is called. -/
theorem C9_witness :
    MainAction.callService ∈ (mainRun c9WitEnv).2 ∧
    MainAction.extractText ∈ (mainRun c9WitEnv).2 :=
  (C9_claim c9WitEnv).2 (by decide) (by decide) (by decide)

/-- C10: an exception raised by the predicate on any poll is swallowed —
deleting a raising poll from anywhere in the poll sequence does not
change the helper's outcome — and the helper's only outcomes are normal
success or its own timeout error; no predicate exception ever propagates
out of `wait_for_condition`. -/
theorem C10_claim (timeout : Nat) (pre post polls : List PollRes) :
    wait_for_condition timeout (pre ++ PollRes.raises :: post) =
      wait_for_condition timeout (pre ++ post) ∧
    (wait_for_condition timeout polls = Except.ok () ∨
      wait_for_condition timeout polls =
        Except.error ("Timed out after " ++ toString timeout ++ " seconds.")) := by
  constructor
  · induction pre with
    | nil => rfl
    | cons p rest ih =>
      cases p with
      | raises => exact ih
      | returns b =>
        cases b with
        | true => rfl
        | false => exact ih
  · induction polls with
    | nil => exact Or.inr rfl
    | cons p rest ih =>
      cases p with
      | raises => exact ih
      | returns b =>
        cases b with
        | true => exact Or.inl rfl
        | false => exact ih

end SerpScraper
